import Mathlib

set_option autoImplicit false

/-!
Verification of the todo-task HTTP API's validation and state-transition
rules against its specification.

The development shallowly embeds the current revision of the Go sources:
the gin handlers of `api` (`createTodo`, `getTodoById`, `getTodos`,
`updateTodoTextInfo`, `updateTodoCompletionInfo`, `updateTodoDoneInfo`,
`deleteTodo`, the ones written against the `Queries` store interface),
the `db` package's `Queries` methods, and the `valid` package's period
validator.  Machine values are modelled as follows:

* `time.Time` values and `time.Now()` are UTC instants counted in whole
  seconds since the Unix epoch (`Int`); `time.Parse("2006-01-02", s)`
  yields the midnight instant of the parsed proleptic-Gregorian date.
* `float32` completion percentages are modelled as `Rat`; the handlers
  only compare and copy them, never compute with them.
* The gorm-backed store is a record `DB` holding the table rows, the
  auto-increment sequence, and a connection flag; a lost connection makes
  every query return `DbError.connLost` (the handlers map it to HTTP 500).
* gin's input binding (`binding:"required,min=1"` etc.) is modelled by a
  boolean validation function per request type; `required` rejects the
  field's zero value, exactly as gin does.
-/

namespace Todos

/-- Todo ORM model structure (db/model: `Id`, `Title`, `Description`,
`Completion float32`, `Expiry time.Time`, `IsDone bool`). -/
structure Todo where
  id : Int
  title : String
  description : String
  completion : Rat
  expiry : Int
  isDone : Bool
  deriving DecidableEq

/-- Seconds in one calendar day (the model ignores time zones and leap
seconds, as the handlers' date arithmetic is plain `AddDate(0,0,n)`). -/
def secondsPerDay : Int := 86400

/-- Midnight instant of the calendar day containing `t`; this is what
`time.Parse("2006-01-02", t.Format("2006-01-02"))` produces in the
handlers' period computation. -/
def startOfDay (t : Int) : Int := t / secondsPerDay * secondsPerDay

/-- `t.AddDate(0, 0, d)`. -/
def addDateDays (t : Int) (d : Int) : Int := t + d * secondsPerDay

/-- `time.Weekday()` with Go's convention Sunday = 0.  The Unix epoch
1970-01-01 was a Thursday (= 4). -/
def weekdayNum (t : Int) : Int := (t / secondsPerDay + 4) % 7

/-- Numeric value of a decimal digit character. -/
def digitVal (c : Char) : Nat := c.toNat - 48

/-- Gregorian leap-year test. -/
def isLeapYear (y : Nat) : Bool := (y % 4 == 0 && y % 100 != 0) || y % 400 == 0

/-- Number of days in month `m` (1-based) of year `y`. -/
def daysInMonth (y m : Nat) : Nat :=
  if m == 2 then (if isLeapYear y then 29 else 28)
  else if m == 4 || m == 6 || m == 9 || m == 11 then 30
  else 31

/-- Days in year `y` before the first day of month `m` (1-based). -/
def daysBeforeMonth (y m : Nat) : Nat :=
  (List.range (m - 1)).foldl (fun acc i => acc + daysInMonth y (i + 1)) 0

/-- Number of leap years `z` with `0 ≤ z < y` (year 0 is a leap year in
the proleptic Gregorian calendar). -/
def leapYearsBefore (y : Nat) : Nat := (y + 3) / 4 - (y + 99) / 100 + (y + 399) / 400

/-- Days from 0000-01-01 to `y`-`m`-`d` in the proleptic Gregorian
calendar.  1970-01-01 is day 719528. -/
def daysFromYearZero (y m d : Nat) : Nat :=
  365 * y + leapYearsBefore y + daysBeforeMonth y m + (d - 1)

/-- Unix instant (seconds) of midnight UTC on `y`-`m`-`d`; the value of
`time.Parse("2006-01-02", ...)` on the corresponding string. -/
def dateToUnix (y m d : Nat) : Int :=
  ((daysFromYearZero y m d : Int) - 719528) * secondsPerDay

/-- `time.Parse("2006-01-02", s)`: exactly ten characters `YYYY-MM-DD`,
all digit positions decimal digits, month in 1..12 and day valid for the
month, else a parse error (`none`). -/
def parseDate (s : String) : Option (Nat × Nat × Nat) :=
  match s.data with
  | [y1, y2, y3, y4, c1, m1, m2, c2, d1, d2] =>
    if y1.isDigit && y2.isDigit && y3.isDigit && y4.isDigit && (c1 == '-') &&
        m1.isDigit && m2.isDigit && (c2 == '-') && d1.isDigit && d2.isDigit then
      let y := 1000 * digitVal y1 + 100 * digitVal y2 + 10 * digitVal y3 + digitVal y4
      let m := 10 * digitVal m1 + digitVal m2
      let d := 10 * digitVal d1 + digitVal d2
      if 1 ≤ m && m ≤ 12 && 1 ≤ d && d ≤ daysInMonth y m then some (y, m, d)
      else none
    else none
  | _ => none

/-- Errors surfaced by the `Queries` store methods: `"not found"` (zero
rows affected) or an underlying persistence failure such as
`sql.ErrConnDone`. -/
inductive DbError where
  | notFound
  | connLost
  deriving DecidableEq

/-- The gorm-backed store behind the `db.DB` interface: the `todos`
table, the primary-key auto-increment sequence, and whether the
connection is alive. -/
structure DB where
  conn : Bool
  todos : List Todo
  nextId : Int
  deriving DecidableEq

/-- `Queries.GetAllTodos`: `db.Find(&todos)`. -/
def getAllTodos (s : DB) : Except DbError (List Todo) :=
  if s.conn then Except.ok s.todos else Except.error DbError.connLost

/-- `Queries.GetManyTodos`: `db.Where("(expiry BETWEEN ? AND ?) AND NOT
is_done", startDate, endDate)` — SQL `BETWEEN` is inclusive at both
ends. -/
def getManyTodos (s : DB) (startDate endDate : Int) : Except DbError (List Todo) :=
  if s.conn then
    Except.ok (s.todos.filter fun t =>
      decide (startDate ≤ t.expiry) && decide (t.expiry ≤ endDate) && !t.isDone)
  else Except.error DbError.connLost

/-- `Queries.GetOneTodoById`: `db.First` by primary key; zero rows
affected yields the `"not found"` error. -/
def getOneTodoById (s : DB) (id : Int) : Except DbError Todo :=
  if s.conn then
    match s.todos.find? (fun t => t.id == id) with
    | some t => Except.ok t
    | none => Except.error DbError.notFound
  else Except.error DbError.connLost

/-- Data struct for `CreateOneTodo` (`db.CreateTodoParams`). -/
structure CreateTodoParams where
  title : String
  description : String
  expiry : Int
  deriving DecidableEq

/-- `Queries.CreateOneTodo`: inserts a row with `IsDone: false` and
`Completion: 0`; gorm assigns the next primary key. -/
def createOneTodo (s : DB) (p : CreateTodoParams) : Except DbError (Todo × DB) :=
  if s.conn then
    let t : Todo :=
      { id := s.nextId, title := p.title, description := p.description,
        completion := 0, expiry := p.expiry, isDone := false }
    Except.ok (t, { s with todos := s.todos ++ [t], nextId := s.nextId + 1 })
  else Except.error DbError.connLost

/-- `Queries.UpdateOneTodo`: `db.Save(&todo)`, an UPDATE of the row whose
primary key matches. -/
def updateOneTodo (s : DB) (todo : Todo) : Except DbError (Todo × DB) :=
  if s.conn then
    Except.ok (todo,
      { s with todos := s.todos.map fun u => if u.id == todo.id then todo else u })
  else Except.error DbError.connLost

/-- `Queries.DeleteOneTodo`: `db.Delete(&Todo, id)`; zero rows affected
yields the `"not found"` error. -/
def deleteOneTodo (s : DB) (id : Int) : Except DbError DB :=
  if s.conn then
    if s.todos.any (fun t => t.id == id) then
      Except.ok { s with todos := s.todos.filter fun t => !(t.id == id) }
    else Except.error DbError.notFound
  else Except.error DbError.connLost

/-- Error payloads the handlers place in the `errorResponse` body,
distinguished by origin: a gin binding rejection, the `time.Parse`
error, `"wrong date"`, the non-increasing-completion message, `"todo is
already done"`, `"wrong param"`, or a propagated store error. -/
inductive ApiErr where
  | bindingError
  | parseError
  | wrongDate
  | completionTooLow
  | alreadyDone
  | wrongParam
  | dbFailure (e : DbError)
  deriving DecidableEq

/-- A handler's JSON reply: `Response` with a `Todo`, a list, or a bare
message, or an error envelope at 400/404/500. -/
inductive ApiResult where
  | okTodo (t : Todo)
  | okTodos (ts : List Todo)
  | okMsg
  | badRequest (e : ApiErr)
  | notFound
  | internalError
  deriving DecidableEq

/-- HTTP status code of a handler reply. -/
def statusOf : ApiResult → Nat
  | ApiResult.okTodo _ => 200
  | ApiResult.okTodos _ => 200
  | ApiResult.okMsg => 200
  | ApiResult.badRequest _ => 400
  | ApiResult.notFound => 404
  | ApiResult.internalError => 500

/-- `CreateTodoRequest` body. -/
structure CreateTodoRequest where
  title : String
  description : String
  expiry : String
  deriving DecidableEq

/-- gin binding for `CreateTodoRequest`: `Title`/`Description` are
`required,min=1` (zero value `""` rejected, length at least 1) and
`Expiry` is `required`. -/
def bindCreateTodoRequest (r : CreateTodoRequest) : Bool :=
  r.title != "" && decide (1 ≤ r.title.length) &&
  r.description != "" && decide (1 ≤ r.description.length) &&
  r.expiry != ""

/-- `GetTodoByIdRequest` uri. -/
structure GetTodoByIdRequest where
  id : Int
  deriving DecidableEq

/-- gin binding for `GetTodoByIdRequest`: `Id` is `required,min=1`. -/
def bindGetTodoByIdRequest (r : GetTodoByIdRequest) : Bool :=
  r.id != 0 && decide (1 ≤ r.id)

/-- `UpdateTodoInfoRequest` body. -/
structure UpdateTodoInfoRequest where
  id : Int
  title : String
  description : String
  expiry : String
  deriving DecidableEq

/-- gin binding for `UpdateTodoInfoRequest`. -/
def bindUpdateTodoInfoRequest (r : UpdateTodoInfoRequest) : Bool :=
  r.id != 0 && decide (1 ≤ r.id) &&
  r.title != "" && decide (1 ≤ r.title.length) &&
  r.description != "" && decide (1 ≤ r.description.length) &&
  r.expiry != ""

/-- `UpdateTodoCompletionRequest` body. -/
structure UpdateTodoCompletionRequest where
  id : Int
  completion : Rat
  deriving DecidableEq

/-- gin binding for `UpdateTodoCompletionRequest`: `Id` is
`required,min=1`; `Completion` is `required,gte=0,lte=100`, where
`required` rejects the float zero value 0. -/
def bindUpdateTodoCompletionRequest (r : UpdateTodoCompletionRequest) : Bool :=
  r.id != 0 && decide (1 ≤ r.id) &&
  r.completion != 0 && decide (0 ≤ r.completion) && decide (r.completion ≤ 100)

/-- `UpdateTodoDoneRequest` body. -/
structure UpdateTodoDoneRequest where
  id : Int
  isDone : Bool
  deriving DecidableEq

/-- gin binding for `UpdateTodoDoneRequest`: `Id` is `required,min=1`;
`IsDone` is `required`, which rejects the bool zero value `false`. -/
def bindUpdateTodoDoneRequest (r : UpdateTodoDoneRequest) : Bool :=
  r.id != 0 && decide (1 ≤ r.id) && r.isDone != false

/-- `DeleteTodoRequest` uri. -/
structure DeleteTodoRequest where
  id : Int
  deriving DecidableEq

/-- gin binding for `DeleteTodoRequest`: `Id` is `required,min=1`. -/
def bindDeleteTodoRequest (r : DeleteTodoRequest) : Bool :=
  r.id != 0 && decide (1 ≤ r.id)

/-- `GetTodosRequest` query. -/
structure GetTodosRequest where
  period : String
  deriving DecidableEq

/-- The `valid.ValidPeriod` custom validator: true exactly on `"today"`,
`"tomorrow"`, `"week"` and the empty string. -/
def validPeriod (p : String) : Bool :=
  p == "today" || p == "tomorrow" || p == "week" || p == ""

/-- Handler `createTodo`: bind, `time.Parse("2006-01-02", req.Expiry)`
(parse error is answered with 400), reject with `"wrong date"` when the
parsed instant is `Before` now, then `CreateOneTodo`. -/
def createTodo (s : DB) (req : CreateTodoRequest) (now : Int) : ApiResult × DB :=
  if bindCreateTodoRequest req then
    match parseDate req.expiry with
    | none => (ApiResult.badRequest ApiErr.parseError, s)
    | some (y, m, d) =>
      let expiryTime := dateToUnix y m d
      if expiryTime < now then (ApiResult.badRequest ApiErr.wrongDate, s)
      else
        match createOneTodo s
            { title := req.title, description := req.description, expiry := expiryTime } with
        | Except.error _ => (ApiResult.internalError, s)
        | Except.ok (res, s1) => (ApiResult.okTodo res, s1)
  else (ApiResult.badRequest ApiErr.bindingError, s)

/-- Handler `getTodoById`: bind the uri, fetch; `"not found"` answers
404, any other store error 500. -/
def getTodoById (s : DB) (req : GetTodoByIdRequest) : ApiResult × DB :=
  if bindGetTodoByIdRequest req then
    match getOneTodoById s req.id with
    | Except.error DbError.notFound => (ApiResult.notFound, s)
    | Except.error DbError.connLost => (ApiResult.internalError, s)
    | Except.ok res => (ApiResult.okTodo res, s)
  else (ApiResult.badRequest ApiErr.bindingError, s)

/-- Handler `updateTodoTextInfo`: bind, parse and check the expiry
(before touching the store), fetch the record, replace `Description`,
`Expiry`, `Title`, and save. -/
def updateTodoTextInfo (s : DB) (req : UpdateTodoInfoRequest) (now : Int) : ApiResult × DB :=
  if bindUpdateTodoInfoRequest req then
    match parseDate req.expiry with
    | none => (ApiResult.badRequest ApiErr.parseError, s)
    | some (y, m, d) =>
      let expiryTime := dateToUnix y m d
      if expiryTime < now then (ApiResult.badRequest ApiErr.wrongDate, s)
      else
        match getOneTodoById s req.id with
        | Except.error DbError.notFound => (ApiResult.notFound, s)
        | Except.error DbError.connLost => (ApiResult.internalError, s)
        | Except.ok todo =>
          match updateOneTodo s
              { todo with description := req.description, expiry := expiryTime,
                          title := req.title } with
          | Except.error _ => (ApiResult.internalError, s)
          | Except.ok (res, s1) => (ApiResult.okTodo res, s1)
  else (ApiResult.badRequest ApiErr.bindingError, s)

/-- Handler `updateTodoCompletionInfo`: bind, fetch, reject when
`todo.Completion >= req.Completion`, replace `Completion`, save. -/
def updateTodoCompletionInfo (s : DB) (req : UpdateTodoCompletionRequest) : ApiResult × DB :=
  if bindUpdateTodoCompletionRequest req then
    match getOneTodoById s req.id with
    | Except.error DbError.notFound => (ApiResult.notFound, s)
    | Except.error DbError.connLost => (ApiResult.internalError, s)
    | Except.ok todo =>
      if todo.completion ≥ req.completion then
        (ApiResult.badRequest ApiErr.completionTooLow, s)
      else
        match updateOneTodo s { todo with completion := req.completion } with
        | Except.error _ => (ApiResult.internalError, s)
        | Except.ok (res, s1) => (ApiResult.okTodo res, s1)
  else (ApiResult.badRequest ApiErr.bindingError, s)

/-- Handler `updateTodoDoneInfo`: bind, fetch, reject with `"todo is
already done"` when `todo.IsDone || !req.IsDone`, replace `IsDone`,
save. -/
def updateTodoDoneInfo (s : DB) (req : UpdateTodoDoneRequest) : ApiResult × DB :=
  if bindUpdateTodoDoneRequest req then
    match getOneTodoById s req.id with
    | Except.error DbError.notFound => (ApiResult.notFound, s)
    | Except.error DbError.connLost => (ApiResult.internalError, s)
    | Except.ok todo =>
      if todo.isDone || !req.isDone then
        (ApiResult.badRequest ApiErr.alreadyDone, s)
      else
        match updateOneTodo s { todo with isDone := req.isDone } with
        | Except.error _ => (ApiResult.internalError, s)
        | Except.ok (res, s1) => (ApiResult.okTodo res, s1)
  else (ApiResult.badRequest ApiErr.bindingError, s)

/-- Handler `deleteTodo`: bind the uri and delete; `"not found"` (zero
rows removed) answers 404. -/
def deleteTodo (s : DB) (req : DeleteTodoRequest) : ApiResult × DB :=
  if bindDeleteTodoRequest req then
    match deleteOneTodo s req.id with
    | Except.error DbError.notFound => (ApiResult.notFound, s)
    | Except.error DbError.connLost => (ApiResult.internalError, s)
    | Except.ok s1 => (ApiResult.okMsg, s1)
  else (ApiResult.badRequest ApiErr.bindingError, s)

/-- Handler `getTodos`: bind the `period` query (custom `period`
validator), then switch on it.  Each named period queries
`GetManyTodos(time.Now(), endTime)` where `endTime` is the midnight
instant obtained by formatting `now` shifted by 1 day, 2 days, or
`8 - weekday` days and re-parsing; the empty period is `GetAllTodos`;
the switch default answers `"wrong param"` with 400. -/
def getTodos (s : DB) (req : GetTodosRequest) (now : Int) : ApiResult × DB :=
  if validPeriod req.period then
    if req.period == "today" then
      match getManyTodos s now (startOfDay (addDateDays now 1)) with
      | Except.error _ => (ApiResult.internalError, s)
      | Except.ok todos => (ApiResult.okTodos todos, s)
    else if req.period == "tomorrow" then
      match getManyTodos s now (startOfDay (addDateDays now 2)) with
      | Except.error _ => (ApiResult.internalError, s)
      | Except.ok todos => (ApiResult.okTodos todos, s)
    else if req.period == "week" then
      match getManyTodos s now (startOfDay (addDateDays now (8 - weekdayNum now))) with
      | Except.error _ => (ApiResult.internalError, s)
      | Except.ok todos => (ApiResult.okTodos todos, s)
    else if req.period == "" then
      match getAllTodos s with
      | Except.error _ => (ApiResult.internalError, s)
      | Except.ok todos => (ApiResult.okTodos todos, s)
    else (ApiResult.badRequest ApiErr.wrongParam, s)
  else (ApiResult.badRequest ApiErr.bindingError, s)

/-- One inbound request to any of the seven routes. -/
inductive Op where
  | create (req : CreateTodoRequest) (now : Int)
  | getById (req : GetTodoByIdRequest)
  | listTodos (req : GetTodosRequest) (now : Int)
  | updateText (req : UpdateTodoInfoRequest) (now : Int)
  | updateCompletion (req : UpdateTodoCompletionRequest)
  | updateDone (req : UpdateTodoDoneRequest)
  | deleteById (req : DeleteTodoRequest)

/-- Dispatch of one request to its handler, as the router does. -/
def runOp (s : DB) : Op → ApiResult × DB
  | Op.create req now => createTodo s req now
  | Op.getById req => getTodoById s req
  | Op.listTodos req now => getTodos s req now
  | Op.updateText req now => updateTodoTextInfo s req now
  | Op.updateCompletion req => updateTodoCompletionInfo s req
  | Op.updateDone req => updateTodoDoneInfo s req
  | Op.deleteById req => deleteTodo s req

/-- The stored record a primary-key lookup sees (gorm `First`). -/
def lookupById (s : DB) (id : Int) : Option Todo :=
  s.todos.find? (fun t => t.id == id)

end Todos

namespace Todos

/-- A map that fixes every `p`-positive element and preserves `p`
everywhere does not change the first `p`-match of a list. -/
theorem find?_map_eq {α : Type} (f : α → α) (p : α → Bool)
    (hf : ∀ u, p u = true → f u = u) (hp : ∀ u, p (f u) = p u) (l : List α) :
    (l.map f).find? p = l.find? p := by
  induction l with
  | nil => rfl
  | cons a l ih =>
    by_cases hpa : p a = true
    · rw [List.map_cons, List.find?_cons_of_pos _ ((hp a).trans hpa),
        List.find?_cons_of_pos _ hpa, hf a hpa]
    · rw [List.map_cons, List.find?_cons_of_neg _ (by rw [hp]; exact hpa),
        List.find?_cons_of_neg _ hpa, ih]

/-- Filtering away only elements that fail `p` keeps the first
`p`-match. -/
theorem find?_filter_eq {α : Type} (p keep : α → Bool)
    (h : ∀ u, p u = true → keep u = true) (l : List α) :
    (l.filter keep).find? p = l.find? p := by
  induction l with
  | nil => rfl
  | cons a l ih =>
    by_cases hk : keep a = true
    · rw [List.filter_cons_of_pos hk]
      by_cases hpa : p a = true
      · rw [List.find?_cons_of_pos _ hpa, List.find?_cons_of_pos _ hpa]
      · rw [List.find?_cons_of_neg _ hpa, List.find?_cons_of_neg _ hpa, ih]
    · have hpa : ¬p a = true := fun hpa => hk (h a hpa)
      rw [List.filter_cons_of_neg hk, List.find?_cons_of_neg _ hpa, ih]

/-- Replacing every row of key `i` by a row `t1` that itself has key `i`
turns the first key-`i` match into `t1` (the row UPDATE of
`updateOneTodo`, seen through a later lookup). -/
theorem find?_replaceById {l : List Todo} {i : Int} {t : Todo} (t1 : Todo)
    (hfind : l.find? (fun u => u.id == i) = some t) (hid : t1.id = i) :
    (l.map fun u => if u.id == t1.id then t1 else u).find? (fun u => u.id == i) =
      some t1 := by
  induction l with
  | nil => simp at hfind
  | cons a l ih =>
    by_cases hpa : (a.id == i) = true
    · have ha : a.id = i := by simpa using hpa
      have hrepl : (if a.id == t1.id then t1 else a) = t1 := by rw [hid, ha]; simp
      rw [List.map_cons, hrepl]
      exact @List.find?_cons_of_pos _ (fun u => u.id == i) t1 _ (by simp [hid])
    · have hfalse : (a.id == i) = false := by simpa using hpa
      have hfind2 : l.find? (fun u => u.id == i) = some t := by
        rwa [@List.find?_cons_of_neg _ (fun u => u.id == i) a l hpa] at hfind
      have hrepl : (if a.id == t1.id then t1 else a) = a := by rw [hid, hfalse]; simp
      rw [List.map_cons, hrepl,
        @List.find?_cons_of_neg _ (fun u => u.id == i) a _ hpa]
      exact ih hfind2

/-- `GetOneTodoById` succeeds exactly when the connection is up and the
key is present; the returned row is the first match. -/
theorem getOneTodoById_ok_iff {s : DB} {i : Int} {t : Todo} :
    getOneTodoById s i = Except.ok t ↔ s.conn = true ∧ lookupById s i = some t := by
  cases hc : s.conn <;> cases hf : s.todos.find? (fun u => u.id == i) <;>
    simp [getOneTodoById, lookupById, hc, hf]

/-- `GetOneTodoById` reports `"not found"` exactly when the connection
is up and the key is absent. -/
theorem getOneTodoById_notFound_iff {s : DB} {i : Int} :
    getOneTodoById s i = Except.error DbError.notFound ↔
      s.conn = true ∧ lookupById s i = none := by
  cases hc : s.conn <;> cases hf : s.todos.find? (fun u => u.id == i) <;>
    simp [getOneTodoById, lookupById, hc, hf]

/-- A row found by key lookup carries that key. -/
theorem lookupById_id {s : DB} {i : Int} {t : Todo} (h : lookupById s i = some t) :
    t.id = i := by
  have := List.find?_some h
  simpa using this

/-- A row found by key lookup is a stored row. -/
theorem lookupById_mem {s : DB} {i : Int} {t : Todo} (h : lookupById s i = some t) :
    t ∈ s.todos :=
  List.mem_of_find?_eq_some h

end Todos

namespace Todos

/-- `UpdateOneTodo` on a live connection performs the row UPDATE. -/
theorem updateOneTodo_ok {s : DB} (h : s.conn = true) (t : Todo) :
    updateOneTodo s t = Except.ok (t,
      { s with todos := s.todos.map fun u => if u.id == t.id then t else u }) := by
  simp [updateOneTodo, h]

/-- `getTodos` with `period=today` queries `[now, midnight of today+1]`. -/
theorem getTodos_today_eq (s : DB) (now : Int) :
    getTodos s ⟨"today"⟩ now =
      match getManyTodos s now (startOfDay (addDateDays now 1)) with
      | Except.error _ => (ApiResult.internalError, s)
      | Except.ok todos => (ApiResult.okTodos todos, s) := rfl

/-- `getTodos` with `period=tomorrow` queries `[now, midnight of today+2]`. -/
theorem getTodos_tomorrow_eq (s : DB) (now : Int) :
    getTodos s ⟨"tomorrow"⟩ now =
      match getManyTodos s now (startOfDay (addDateDays now 2)) with
      | Except.error _ => (ApiResult.internalError, s)
      | Except.ok todos => (ApiResult.okTodos todos, s) := rfl

/-- `getTodos` with `period=week` queries up to `8 - weekday` days ahead. -/
theorem getTodos_week_eq (s : DB) (now : Int) :
    getTodos s ⟨"week"⟩ now =
      match getManyTodos s now (startOfDay (addDateDays now (8 - weekdayNum now))) with
      | Except.error _ => (ApiResult.internalError, s)
      | Except.ok todos => (ApiResult.okTodos todos, s) := rfl

/-- `getTodos` with the empty period runs `GetAllTodos`. -/
theorem getTodos_all_eq (s : DB) (now : Int) :
    getTodos s ⟨""⟩ now =
      match getAllTodos s with
      | Except.error _ => (ApiResult.internalError, s)
      | Except.ok todos => (ApiResult.okTodos todos, s) := rfl

/-- A period refused by the `period` validator is answered 400 before
the switch is reached. -/
theorem getTodos_badPeriod (s : DB) (p : String) (now : Int) (h : validPeriod p = false) :
    getTodos s ⟨p⟩ now = (ApiResult.badRequest ApiErr.bindingError, s) := by
  simp [getTodos, h]

/-- `GetManyTodos` on a live connection filters the table by the
inclusive expiry window and `NOT is_done`. -/
theorem getManyTodos_ok {s : DB} (h : s.conn = true) (a b : Int) :
    getManyTodos s a b = Except.ok (s.todos.filter fun t =>
      decide (a ≤ t.expiry) && decide (t.expiry ≤ b) && !t.isDone) := by
  simp [getManyTodos, h]

/-- Formatting a day-shifted instant and re-parsing it lands on the
shifted midnight. -/
theorem startOfDay_addDateDays (t k : Int) :
    startOfDay (addDateDays t k) = startOfDay t + k * secondsPerDay := by
  unfold startOfDay addDateDays secondsPerDay
  omega

/-- Weekday of a midnight shifted by `k` whole days. -/
theorem weekdayNum_startOfDay_add (t k : Int) :
    weekdayNum (startOfDay t + k * secondsPerDay) = (weekdayNum t + k) % 7 := by
  unfold weekdayNum startOfDay secondsPerDay
  omega

end Todos

namespace Todos

/-- The list after gorm `Save`: the row with the key of `t` replaced by `t`. -/
def saveRow (l : List Todo) (t : Todo) : List Todo :=
  l.map fun u => if u.id == t.id then t else u

/-- Row written by a successful text update. -/
def textRow (todo : Todo) (req : UpdateTodoInfoRequest) (e : Int) : Todo :=
  { todo with description := req.description, expiry := e, title := req.title }

theorem createTodo_state (s : DB) (req : CreateTodoRequest) (now : Int) :
    (createTodo s req now).2 = s ∨
    ∃ t1 : Todo, t1.isDone = false ∧
      (createTodo s req now).2 = { s with todos := s.todos ++ [t1], nextId := s.nextId + 1 } := by
  by_cases hb : bindCreateTodoRequest req = true
  · cases hp : parseDate req.expiry with
    | none => left; simp [createTodo, hb, hp]
    | some ymd =>
      obtain ⟨y, m, d⟩ := ymd
      by_cases hlt : dateToUnix y m d < now
      · left; simp [createTodo, hb, hp, hlt]
      · cases hc : s.conn
        · left; simp [createTodo, hb, hp, hlt, createOneTodo, hc]
        · right
          refine ⟨⟨s.nextId, req.title, req.description, 0, dateToUnix y m d, false⟩, rfl, ?_⟩
          simp [createTodo, hb, hp, hlt, createOneTodo, hc]
  · left; simp [createTodo, hb]

theorem updateTodoTextInfo_state (s : DB) (req : UpdateTodoInfoRequest) (now : Int) :
    (updateTodoTextInfo s req now).2 = s ∨
    ∃ todo t1, lookupById s req.id = some todo ∧
      t1.isDone = todo.isDone ∧ t1.id = req.id ∧
      (updateTodoTextInfo s req now).2 = { s with todos := saveRow s.todos t1 } := by
  by_cases hb : bindUpdateTodoInfoRequest req = true
  · cases hp : parseDate req.expiry with
    | none => left; simp [updateTodoTextInfo, hb, hp]
    | some ymd =>
      obtain ⟨y, m, d⟩ := ymd
      by_cases hlt : dateToUnix y m d < now
      · left; simp [updateTodoTextInfo, hb, hp, hlt]
      · cases hg : getOneTodoById s req.id with
        | error e => cases e <;> [left; left] <;> simp [updateTodoTextInfo, hb, hp, hlt, hg]
        | ok todo =>
          have hc : s.conn = true := (getOneTodoById_ok_iff.mp hg).1
          have hfind : lookupById s req.id = some todo := (getOneTodoById_ok_iff.mp hg).2
          have hid : todo.id = req.id := lookupById_id hfind
          have hstate : (updateTodoTextInfo s req now).2 =
              { s with todos := saveRow s.todos (textRow todo req (dateToUnix y m d)) } := by
            simp [updateTodoTextInfo, hb, hp, hlt, hg, updateOneTodo, hc, saveRow, textRow]
          exact Or.inr ⟨todo, textRow todo req (dateToUnix y m d), hfind, rfl, hid, hstate⟩
  · left; simp [updateTodoTextInfo, hb]

theorem updateTodoCompletionInfo_state (s : DB) (req : UpdateTodoCompletionRequest) :
    (updateTodoCompletionInfo s req).2 = s ∨
    ∃ todo, lookupById s req.id = some todo ∧
      bindUpdateTodoCompletionRequest req = true ∧
      todo.completion < req.completion ∧
      (updateTodoCompletionInfo s req).2 =
        { s with todos := saveRow s.todos { todo with completion := req.completion } } := by
  by_cases hb : bindUpdateTodoCompletionRequest req = true
  · cases hg : getOneTodoById s req.id with
    | error e => cases e <;> [left; left] <;> simp [updateTodoCompletionInfo, hb, hg]
    | ok todo =>
      have hc : s.conn = true := (getOneTodoById_ok_iff.mp hg).1
      have hfind : lookupById s req.id = some todo := (getOneTodoById_ok_iff.mp hg).2
      by_cases hge : todo.completion ≥ req.completion
      · left; simp [updateTodoCompletionInfo, hb, hg, hge]
      · right
        refine ⟨todo, hfind, hb, lt_of_not_ge hge, ?_⟩
        simp [updateTodoCompletionInfo, hb, hg, hge, updateOneTodo, hc, saveRow]
  · left; simp [updateTodoCompletionInfo, hb]

theorem updateTodoDoneInfo_state (s : DB) (req : UpdateTodoDoneRequest) :
    (updateTodoDoneInfo s req).2 = s ∨
    ∃ todo, lookupById s req.id = some todo ∧ todo.isDone = false ∧ req.isDone = true ∧
      (updateTodoDoneInfo s req).2 =
        { s with todos := saveRow s.todos { todo with isDone := req.isDone } } := by
  by_cases hb : bindUpdateTodoDoneRequest req = true
  · cases hg : getOneTodoById s req.id with
    | error e => cases e <;> [left; left] <;> simp [updateTodoDoneInfo, hb, hg]
    | ok todo =>
      have hc : s.conn = true := (getOneTodoById_ok_iff.mp hg).1
      have hfind : lookupById s req.id = some todo := (getOneTodoById_ok_iff.mp hg).2
      by_cases hdone : (todo.isDone || !req.isDone) = true
      · left; simp [updateTodoDoneInfo, hb, hg, hdone]
      · have hparts : todo.isDone = false ∧ req.isDone = true := by
          constructor
          · cases h1 : todo.isDone
            · rfl
            · exact absurd (by simp [h1]) hdone
          · cases h2 : req.isDone
            · exact absurd (by simp [h2]) hdone
            · rfl
        right
        refine ⟨todo, hfind, hparts.1, hparts.2, ?_⟩
        simp [updateTodoDoneInfo, hb, hg, hdone, updateOneTodo, hc, saveRow]
  · left; simp [updateTodoDoneInfo, hb]

theorem deleteTodo_state (s : DB) (req : DeleteTodoRequest) :
    (deleteTodo s req).2 = s ∨
    (deleteTodo s req).2 = { s with todos := s.todos.filter fun t => !(t.id == req.id) } := by
  by_cases hb : bindDeleteTodoRequest req = true
  · cases hc : s.conn
    · left; simp [deleteTodo, hb, deleteOneTodo, hc]
    · by_cases hany : s.todos.any (fun t => t.id == req.id) = true
      · right; simp [deleteTodo, hb, deleteOneTodo, hc, hany]
      · left; simp [deleteTodo, hb, deleteOneTodo, hc, hany]
  · left; simp [deleteTodo, hb]

theorem getTodoById_state (s : DB) (req : GetTodoByIdRequest) :
    (getTodoById s req).2 = s := by
  by_cases hb : bindGetTodoByIdRequest req = true
  · cases hg : getOneTodoById s req.id with
    | error e => cases e <;> simp [getTodoById, hb, hg]
    | ok t => simp [getTodoById, hb, hg]
  · simp [getTodoById, hb]

theorem getTodos_state (s : DB) (req : GetTodosRequest) (now : Int) :
    (getTodos s req now).2 = s := by
  obtain ⟨p⟩ := req
  by_cases hv : validPeriod p = true
  · have hcase : p = "today" ∨ p = "tomorrow" ∨ p = "week" ∨ p = "" := by
      have h1 := hv
      simp only [validPeriod, Bool.or_eq_true, beq_iff_eq] at h1
      tauto
    rcases hcase with h | h | h | h <;> subst h
    · rw [getTodos_today_eq]
      cases hm : getManyTodos s now (startOfDay (addDateDays now 1)) <;> simp
    · rw [getTodos_tomorrow_eq]
      cases hm : getManyTodos s now (startOfDay (addDateDays now 2)) <;> simp
    · rw [getTodos_week_eq]
      cases hm : getManyTodos s now (startOfDay (addDateDays now (8 - weekdayNum now))) <;> simp
    · rw [getTodos_all_eq]
      cases hm : getAllTodos s <;> simp
  · rw [getTodos_badPeriod s p now (by simpa using hv)]

end Todos

namespace Todos

/-- Two lookups of the same key agree on `isDone`. -/
theorem isDone_of_same {t t1 : Todo} (h : some t = some t1) (hd : t.isDone = true) :
    t1.isDone = true := by
  cases h
  exact hd

/-- Appending a fresh row (an INSERT) keeps the first match of any key. -/
theorem find?_append_keep {l : List Todo} {i : Int} {t : Todo} (tn : Todo)
    (hfind : l.find? (fun u => u.id == i) = some t) :
    (l ++ [tn]).find? (fun u => u.id == i) = some t := by
  rw [List.find?_append, hfind]
  rfl

/-- Saving a row with a different key does not change the lookup of `i`. -/
theorem find?_saveRow_other {l : List Todo} {i : Int} {t1 : Todo} (hne : t1.id ≠ i) :
    (saveRow l t1).find? (fun u => u.id == i) = l.find? (fun u => u.id == i) := by
  unfold saveRow
  apply find?_map_eq
  · intro u hu
    have h1 : u.id = i := by simpa using hu
    have h2 : (u.id == t1.id) = false := by
      simp only [beq_eq_false_iff_ne, ne_eq, h1]
      exact fun h => hne h.symm
    simp [h2]
  · intro u
    by_cases h : (u.id == t1.id) = true
    · have h1 : u.id = t1.id := by simpa using h
      simp [h, h1]
    · simp [h]

/-- After deleting key `j`, the lookup of `j` is empty. -/
theorem find?_filter_self {l : List Todo} {i : Int} :
    (l.filter fun t => !(t.id == i)).find? (fun u => u.id == i) = none := by
  rw [List.find?_eq_none]
  intro x hx
  have h1 := (List.mem_filter.mp hx).2
  simp only [Bool.not_eq_true', beq_eq_false_iff_ne, ne_eq] at h1
  simpa using h1

/-- After deleting key `j`, lookups of other keys are unchanged. -/
theorem find?_filter_ne {l : List Todo} {i j : Int} (hne : j ≠ i) :
    (l.filter fun t => !(t.id == j)).find? (fun u => u.id == i) =
      l.find? (fun u => u.id == i) := by
  apply find?_filter_eq
  intro u hu
  have h1 : u.id = i := by simpa using hu
  simp only [Bool.not_eq_true', beq_eq_false_iff_ne, ne_eq, h1]
  exact fun h => hne h.symm

/-- No route ever rewrites a finished row back to unfinished: whatever
request runs, a row that was stored with `is_done = true` and is still
stored afterwards is still finished. -/
theorem isDone_preserved (op : Op) (s : DB) (i : Int) (t t1 : Todo)
    (hfind : lookupById s i = some t) (hdone : t.isDone = true)
    (hfind1 : lookupById (runOp s op).2 i = some t1) : t1.isDone = true := by
  cases op with
  | create req now =>
    simp only [runOp] at hfind1
    rcases createTodo_state s req now with h | ⟨tn, _, h⟩
    · rw [h] at hfind1
      exact isDone_of_same (hfind.symm.trans hfind1) hdone
    · rw [h] at hfind1
      simp only [lookupById] at hfind hfind1
      rw [find?_append_keep tn hfind] at hfind1
      exact isDone_of_same hfind1 hdone
  | getById req =>
    simp only [runOp] at hfind1
    rw [getTodoById_state] at hfind1
    exact isDone_of_same (hfind.symm.trans hfind1) hdone
  | listTodos req now =>
    simp only [runOp] at hfind1
    rw [getTodos_state] at hfind1
    exact isDone_of_same (hfind.symm.trans hfind1) hdone
  | updateText req now =>
    simp only [runOp] at hfind1
    rcases updateTodoTextInfo_state s req now with h | ⟨todo, tx, hfx, hisx, hidx, h⟩
    · rw [h] at hfind1
      exact isDone_of_same (hfind.symm.trans hfind1) hdone
    · rw [h] at hfind1
      by_cases hii : req.id = i
      · subst hii
        have htt : todo = t := by
          have h2 := hfx.symm.trans hfind
          simpa using h2
        simp only [lookupById] at hfind hfind1
        rw [show (saveRow s.todos tx).find? (fun u => u.id == req.id) = some tx from
          find?_replaceById tx hfind hidx] at hfind1
        refine isDone_of_same hfind1 ?_
        rw [hisx, htt]
        exact hdone
      · simp only [lookupById] at hfind hfind1
        rw [find?_saveRow_other (by rw [hidx]; exact hii)] at hfind1
        exact isDone_of_same (hfind.symm.trans hfind1) hdone
  | updateCompletion req =>
    simp only [runOp] at hfind1
    rcases updateTodoCompletionInfo_state s req with h | ⟨todo, hfx, _, _, h⟩
    · rw [h] at hfind1
      exact isDone_of_same (hfind.symm.trans hfind1) hdone
    · rw [h] at hfind1
      by_cases hii : req.id = i
      · subst hii
        have htt : todo = t := by
          have h2 := hfx.symm.trans hfind
          simpa using h2
        have hidx0 : todo.id = req.id := lookupById_id hfx
        have hidx : ({ todo with completion := req.completion } : Todo).id = req.id := hidx0
        simp only [lookupById] at hfind hfind1
        rw [show (saveRow s.todos { todo with completion := req.completion }).find?
            (fun u => u.id == req.id) = some { todo with completion := req.completion } from
          find?_replaceById _ hfind hidx] at hfind1
        refine isDone_of_same hfind1 ?_
        show todo.isDone = true
        rw [htt]
        exact hdone
      · have hidx0 : todo.id = req.id := lookupById_id hfx
        have hidx : ({ todo with completion := req.completion } : Todo).id = req.id := hidx0
        simp only [lookupById] at hfind hfind1
        rw [find?_saveRow_other (by rw [hidx]; exact hii)] at hfind1
        exact isDone_of_same (hfind.symm.trans hfind1) hdone
  | updateDone req =>
    simp only [runOp] at hfind1
    rcases updateTodoDoneInfo_state s req with h | ⟨todo, hfx, hnotdone, _, h⟩
    · rw [h] at hfind1
      exact isDone_of_same (hfind.symm.trans hfind1) hdone
    · rw [h] at hfind1
      by_cases hii : req.id = i
      · subst hii
        have htt : todo = t := by
          have h2 := hfx.symm.trans hfind
          simpa using h2
        rw [htt, hdone] at hnotdone
        exact absurd hnotdone (by simp)
      · have hidx0 : todo.id = req.id := lookupById_id hfx
        have hidx : ({ todo with isDone := req.isDone } : Todo).id = req.id := hidx0
        simp only [lookupById] at hfind hfind1
        rw [find?_saveRow_other (by rw [hidx]; exact hii)] at hfind1
        exact isDone_of_same (hfind.symm.trans hfind1) hdone
  | deleteById req =>
    simp only [runOp] at hfind1
    rcases deleteTodo_state s req with h | h
    · rw [h] at hfind1
      exact isDone_of_same (hfind.symm.trans hfind1) hdone
    · rw [h] at hfind1
      by_cases hii : req.id = i
      · subst hii
        simp only [lookupById] at hfind1
        rw [find?_filter_self] at hfind1
        exact absurd hfind1 (by simp)
      · simp only [lookupById] at hfind hfind1
        rw [find?_filter_ne hii] at hfind1
        exact isDone_of_same (hfind.symm.trans hfind1) hdone

end Todos

namespace Todos

/-- Claim C1: a completion update addressing a stored todo with a
requested value in the documented range 0..100 succeeds exactly when the
requested value strictly exceeds the stored completion; on success the
stored row keeps its id, title, description, expiry and done flag and
only the completion becomes the requested value; otherwise the request
is answered 400 and the store is unchanged. -/
theorem completion_update_correct (s : DB) (req : UpdateTodoCompletionRequest) (t : Todo)
    (hconn : s.conn = true) (hfind : lookupById s req.id = some t) (hid : 1 ≤ req.id)
    (ht : 0 ≤ t.completion) (hlo : 0 ≤ req.completion) (hhi : req.completion ≤ 100) :
    (statusOf (updateTodoCompletionInfo s req).1 = 200 ↔ t.completion < req.completion) ∧
    (t.completion < req.completion →
      updateTodoCompletionInfo s req =
        (ApiResult.okTodo { t with completion := req.completion },
         { s with todos := saveRow s.todos { t with completion := req.completion } }) ∧
      lookupById (updateTodoCompletionInfo s req).2 req.id =
        some { t with completion := req.completion }) ∧
    (¬t.completion < req.completion →
      statusOf (updateTodoCompletionInfo s req).1 = 400 ∧
      (updateTodoCompletionInfo s req).2 = s) := by
  have hg : getOneTodoById s req.id = Except.ok t := getOneTodoById_ok_iff.mpr ⟨hconn, hfind⟩
  by_cases hc0 : req.completion = 0
  · have hb : bindUpdateTodoCompletionRequest req = false := by
      simp [bindUpdateTodoCompletionRequest, hc0]
    have hres : updateTodoCompletionInfo s req = (ApiResult.badRequest ApiErr.bindingError, s) := by
      simp [updateTodoCompletionInfo, hb]
    have hnl : ¬t.completion < req.completion := by rw [hc0]; exact not_lt.mpr ht
    refine ⟨?_, fun h => absurd h hnl, fun _ => ?_⟩
    · constructor
      · intro h
        rw [hres] at h
        simp [statusOf] at h
      · intro h
        exact absurd h hnl
    · rw [hres]
      exact ⟨rfl, rfl⟩
  · have hb : bindUpdateTodoCompletionRequest req = true := by
      simp [bindUpdateTodoCompletionRequest, hc0, hlo, hhi]
      omega
    by_cases hlt : t.completion < req.completion
    · have hge : ¬t.completion ≥ req.completion := not_le.mpr hlt
      have heq : updateTodoCompletionInfo s req =
          (ApiResult.okTodo { t with completion := req.completion },
           { s with todos := saveRow s.todos { t with completion := req.completion } }) := by
        simp [updateTodoCompletionInfo, hb, hg, hge, updateOneTodo, hconn, saveRow]
      have hidx0 : t.id = req.id := lookupById_id hfind
      have hidx : ({ t with completion := req.completion } : Todo).id = req.id := hidx0
      refine ⟨?_, fun _ => ⟨heq, ?_⟩, fun h => absurd hlt h⟩
      · rw [heq]
        simpa [statusOf] using hlt
      · rw [heq]
        simp only [lookupById]
        exact find?_replaceById _ hfind hidx
    · have hge : t.completion ≥ req.completion := not_lt.mp hlt
      have heq : updateTodoCompletionInfo s req =
          (ApiResult.badRequest ApiErr.completionTooLow, s) := by
        simp [updateTodoCompletionInfo, hb, hg, hge]
      refine ⟨?_, fun h => absurd h hlt, fun _ => ?_⟩
      · constructor
        · intro h
          rw [heq] at h
          simp [statusOf] at h
        · intro h
          exact absurd h hlt
      · rw [heq]
        exact ⟨rfl, rfl⟩

/-- Instance of claim C1 at a concrete store: raising completion 50 to
60 on the stored todo succeeds. -/
theorem completion_update_correct_witness :
    statusOf (updateTodoCompletionInfo
      ⟨true, [⟨1, "a", "b", 50, 4070908800, false⟩], 2⟩ ⟨1, 60⟩).1 = 200 :=
  ((completion_update_correct ⟨true, [⟨1, "a", "b", 50, 4070908800, false⟩], 2⟩ ⟨1, 60⟩
      ⟨1, "a", "b", 50, 4070908800, false⟩ rfl rfl (by decide) (by decide) (by decide)
      (by decide)).1).mpr (by decide)

/-- Claim C2: a done update on a stored todo succeeds exactly when the
stored row is unfinished and the requested value is true; a bound done
request on an already-finished row is answered with the already-done
validation error; and no route of the system ever turns a stored done
flag from true back to false. -/
theorem done_update_rules :
    (∀ (s : DB) (req : UpdateTodoDoneRequest) (t : Todo),
      s.conn = true → lookupById s req.id = some t → 1 ≤ req.id →
      (statusOf (updateTodoDoneInfo s req).1 = 200 ↔
        (t.isDone = false ∧ req.isDone = true)) ∧
      (t.isDone = true → bindUpdateTodoDoneRequest req = true →
        (updateTodoDoneInfo s req).1 = ApiResult.badRequest ApiErr.alreadyDone)) ∧
    (∀ (op : Op) (s : DB) (i : Int) (t t1 : Todo),
      lookupById s i = some t → t.isDone = true →
      lookupById (runOp s op).2 i = some t1 → t1.isDone = true) := by
  constructor
  · intro s req t hconn hfind hid
    have hg : getOneTodoById s req.id = Except.ok t := getOneTodoById_ok_iff.mpr ⟨hconn, hfind⟩
    by_cases hr : req.isDone = true
    · have hb : bindUpdateTodoDoneRequest req = true := by
        simp [bindUpdateTodoDoneRequest, hr]
        omega
      by_cases hd : t.isDone = true
      · have hcond : (t.isDone || !req.isDone) = true := by simp [hd]
        have heq : (updateTodoDoneInfo s req).1 = ApiResult.badRequest ApiErr.alreadyDone := by
          simp [updateTodoDoneInfo, hb, hg, hcond]
        constructor
        · rw [heq]
          simp [statusOf, hd]
        · intro _ _
          exact heq
      · have hd0 : t.isDone = false := by
          cases h : t.isDone
          · rfl
          · exact absurd h hd
        have hcond : ¬(t.isDone || !req.isDone) = true := by simp [hd0, hr]
        have heq : (updateTodoDoneInfo s req).1 =
            ApiResult.okTodo { t with isDone := req.isDone } := by
          simp [updateTodoDoneInfo, hb, hg, hcond, updateOneTodo, hconn]
        constructor
        · rw [heq]
          simp [statusOf, hd0, hr]
        · intro h
          exact absurd h hd
    · have hr0 : req.isDone = false := by
        cases h : req.isDone
        · rfl
        · exact absurd h hr
      have hb : bindUpdateTodoDoneRequest req = false := by
        simp [bindUpdateTodoDoneRequest, hr0]
      have heq : (updateTodoDoneInfo s req).1 = ApiResult.badRequest ApiErr.bindingError := by
        simp [updateTodoDoneInfo, hb]
      constructor
      · rw [heq]
        simp [statusOf, hr0]
      · intro _ hbt
        rw [hb] at hbt
        exact absurd hbt (by simp)
  · exact fun op s i t t1 => isDone_preserved op s i t t1

/-- Instance of claim C2 at a concrete store: finishing an unfinished
todo succeeds, and a finished row survives an unrelated delete with its
done flag intact. -/
theorem done_update_rules_witness :
    statusOf (updateTodoDoneInfo ⟨true, [⟨1, "a", "b", 0, 99, false⟩], 2⟩ ⟨1, true⟩).1 = 200 ∧
    ({ id := 1, title := "a", description := "b", completion := 0, expiry := 99,
       isDone := true } : Todo).isDone = true :=
  ⟨(done_update_rules.1 ⟨true, [⟨1, "a", "b", 0, 99, false⟩], 2⟩ ⟨1, true⟩
      ⟨1, "a", "b", 0, 99, false⟩ rfl rfl (by decide)).1.mpr (by decide),
   done_update_rules.2 (Op.deleteById ⟨7⟩) ⟨true, [⟨1, "a", "b", 0, 99, true⟩], 2⟩ 1
      ⟨1, "a", "b", 0, 99, true⟩ ⟨1, "a", "b", 0, 99, true⟩ rfl rfl rfl⟩

end Todos

namespace Todos

/-- Claim C3 as stated is false at the boundary instant: the handlers
reject an expiry only when the parsed instant is strictly before now
(Go `Before`), so a request whose expiry parses to exactly the current
instant is accepted although the claim demands failure for parsed date
equal to the current time. -/
theorem expiry_validation_counterexample :
    parseDate "2099-01-01" = some (2099, 1, 1) ∧
    dateToUnix 2099 1 1 ≤ 4070908800 ∧
    statusOf (createTodo ⟨true, [], 1⟩ ⟨"t", "d", "2099-01-01"⟩ 4070908800).1 = 200 := by
  refine ⟨by decide, by decide, ?_⟩
  decide

/-- Claim C3 (amended): on a bound create or text-update request the
expiry validation fails, with a 400 reply, exactly when the expiry
string does not parse as `YYYY-MM-DD` or the parsed date is strictly
before the current time (a parsed date exactly equal to now passes);
`"2022-13-23"` does not parse, and an unparseable expiry is answered
with the parse error, not the past-date error. -/
theorem expiry_validation_rules :
    (∀ (s : DB) (req : CreateTodoRequest) (now : Int),
      bindCreateTodoRequest req = true →
      ((∃ e, (createTodo s req now).1 = ApiResult.badRequest e) ↔
        (parseDate req.expiry = none ∨
         ∃ y m d, parseDate req.expiry = some (y, m, d) ∧ dateToUnix y m d < now))) ∧
    (∀ (s : DB) (req : UpdateTodoInfoRequest) (now : Int),
      bindUpdateTodoInfoRequest req = true →
      ((∃ e, (updateTodoTextInfo s req now).1 = ApiResult.badRequest e) ↔
        (parseDate req.expiry = none ∨
         ∃ y m d, parseDate req.expiry = some (y, m, d) ∧ dateToUnix y m d < now))) ∧
    parseDate "2022-13-23" = none ∧
    (∀ (s : DB) (req : CreateTodoRequest) (now : Int),
      bindCreateTodoRequest req = true → parseDate req.expiry = none →
      (createTodo s req now).1 = ApiResult.badRequest ApiErr.parseError) := by
  refine ⟨?_, ?_, by decide, ?_⟩
  · intro s req now hb
    cases hp : parseDate req.expiry with
    | none =>
      have heq : (createTodo s req now).1 = ApiResult.badRequest ApiErr.parseError := by
        simp [createTodo, hb, hp]
      exact iff_of_true ⟨_, heq⟩ (Or.inl rfl)
    | some ymd =>
      obtain ⟨y, m, d⟩ := ymd
      by_cases hlt : dateToUnix y m d < now
      · have heq : (createTodo s req now).1 = ApiResult.badRequest ApiErr.wrongDate := by
          simp [createTodo, hb, hp, hlt]
        exact iff_of_true ⟨_, heq⟩ (Or.inr ⟨y, m, d, rfl, hlt⟩)
      · apply iff_of_false
        · rintro ⟨e, he⟩
          cases hc : s.conn <;>
            simp [createTodo, hb, hp, hlt, createOneTodo, hc] at he
        · rintro (h | ⟨y1, m1, d1, heq1, hlt1⟩)
          · exact absurd h (by simp)
          · have h2 := heq1
            simp only [Option.some.injEq, Prod.mk.injEq] at h2
            obtain ⟨h3, h4, h5⟩ := h2
            subst h3
            subst h4
            subst h5
            exact absurd hlt1 hlt
  · intro s req now hb
    cases hp : parseDate req.expiry with
    | none =>
      have heq : (updateTodoTextInfo s req now).1 = ApiResult.badRequest ApiErr.parseError := by
        simp [updateTodoTextInfo, hb, hp]
      exact iff_of_true ⟨_, heq⟩ (Or.inl rfl)
    | some ymd =>
      obtain ⟨y, m, d⟩ := ymd
      by_cases hlt : dateToUnix y m d < now
      · have heq : (updateTodoTextInfo s req now).1 = ApiResult.badRequest ApiErr.wrongDate := by
          simp [updateTodoTextInfo, hb, hp, hlt]
        exact iff_of_true ⟨_, heq⟩ (Or.inr ⟨y, m, d, rfl, hlt⟩)
      · apply iff_of_false
        · rintro ⟨e, he⟩
          cases hg : getOneTodoById s req.id with
          | error e2 => cases e2 <;> simp [updateTodoTextInfo, hb, hp, hlt, hg] at he
          | ok todo =>
            have hc : s.conn = true := (getOneTodoById_ok_iff.mp hg).1
            simp [updateTodoTextInfo, hb, hp, hlt, hg, updateOneTodo, hc] at he
        · rintro (h | ⟨y1, m1, d1, heq1, hlt1⟩)
          · exact absurd h (by simp)
          · have h2 := heq1
            simp only [Option.some.injEq, Prod.mk.injEq] at h2
            obtain ⟨h3, h4, h5⟩ := h2
            subst h3
            subst h4
            subst h5
            exact absurd hlt1 hlt
  · intro s req now hb hp
    simp [createTodo, hb, hp]

/-- Instance of claim C3 at a concrete input: creating with expiry
`"2022-13-23"` is rejected as a parse error. -/
theorem expiry_validation_rules_witness :
    (createTodo ⟨true, [], 1⟩ ⟨"t", "d", "2022-13-23"⟩ 0).1 =
      ApiResult.badRequest ApiErr.parseError :=
  expiry_validation_rules.2.2.2 ⟨true, [], 1⟩ ⟨"t", "d", "2022-13-23"⟩ 0 (by decide) (by decide)

end Todos

namespace Todos

/-- Only the internal-error reply carries status 500. -/
theorem statusOf_eq_500 {r : ApiResult} : statusOf r = 500 ↔ r = ApiResult.internalError := by
  cases r <;> simp [statusOf]

theorem createTodo_no500 (s : DB) (req : CreateTodoRequest) (now : Int)
    (hc : s.conn = true) : (createTodo s req now).1 ≠ ApiResult.internalError := by
  by_cases hb : bindCreateTodoRequest req = true
  · cases hp : parseDate req.expiry with
    | none => simp [createTodo, hb, hp]
    | some ymd =>
      obtain ⟨y, m, d⟩ := ymd
      by_cases hlt : dateToUnix y m d < now
      · simp [createTodo, hb, hp, hlt]
      · simp [createTodo, hb, hp, hlt, createOneTodo, hc]
  · simp [createTodo, hb]

theorem getTodoById_no500 (s : DB) (req : GetTodoByIdRequest)
    (hc : s.conn = true) : (getTodoById s req).1 ≠ ApiResult.internalError := by
  by_cases hb : bindGetTodoByIdRequest req = true
  · cases hf : s.todos.find? (fun u => u.id == req.id) with
    | none =>
      have hg : getOneTodoById s req.id = Except.error DbError.notFound :=
        getOneTodoById_notFound_iff.mpr ⟨hc, hf⟩
      simp [getTodoById, hb, hg]
    | some t =>
      have hg : getOneTodoById s req.id = Except.ok t :=
        getOneTodoById_ok_iff.mpr ⟨hc, hf⟩
      simp [getTodoById, hb, hg]
  · simp [getTodoById, hb]

theorem updateTodoTextInfo_no500 (s : DB) (req : UpdateTodoInfoRequest) (now : Int)
    (hc : s.conn = true) : (updateTodoTextInfo s req now).1 ≠ ApiResult.internalError := by
  by_cases hb : bindUpdateTodoInfoRequest req = true
  · cases hp : parseDate req.expiry with
    | none => simp [updateTodoTextInfo, hb, hp]
    | some ymd =>
      obtain ⟨y, m, d⟩ := ymd
      by_cases hlt : dateToUnix y m d < now
      · simp [updateTodoTextInfo, hb, hp, hlt]
      · cases hf : s.todos.find? (fun u => u.id == req.id) with
        | none =>
          have hg : getOneTodoById s req.id = Except.error DbError.notFound :=
            getOneTodoById_notFound_iff.mpr ⟨hc, hf⟩
          simp [updateTodoTextInfo, hb, hp, hlt, hg]
        | some t =>
          have hg : getOneTodoById s req.id = Except.ok t :=
            getOneTodoById_ok_iff.mpr ⟨hc, hf⟩
          simp [updateTodoTextInfo, hb, hp, hlt, hg, updateOneTodo, hc]
  · simp [updateTodoTextInfo, hb]

theorem updateTodoCompletionInfo_no500 (s : DB) (req : UpdateTodoCompletionRequest)
    (hc : s.conn = true) : (updateTodoCompletionInfo s req).1 ≠ ApiResult.internalError := by
  by_cases hb : bindUpdateTodoCompletionRequest req = true
  · cases hf : s.todos.find? (fun u => u.id == req.id) with
    | none =>
      have hg : getOneTodoById s req.id = Except.error DbError.notFound :=
        getOneTodoById_notFound_iff.mpr ⟨hc, hf⟩
      simp [updateTodoCompletionInfo, hb, hg]
    | some t =>
      have hg : getOneTodoById s req.id = Except.ok t :=
        getOneTodoById_ok_iff.mpr ⟨hc, hf⟩
      by_cases hge : t.completion ≥ req.completion
      · simp [updateTodoCompletionInfo, hb, hg, hge]
      · simp [updateTodoCompletionInfo, hb, hg, hge, updateOneTodo, hc]
  · simp [updateTodoCompletionInfo, hb]

theorem updateTodoDoneInfo_no500 (s : DB) (req : UpdateTodoDoneRequest)
    (hc : s.conn = true) : (updateTodoDoneInfo s req).1 ≠ ApiResult.internalError := by
  by_cases hb : bindUpdateTodoDoneRequest req = true
  · cases hf : s.todos.find? (fun u => u.id == req.id) with
    | none =>
      have hg : getOneTodoById s req.id = Except.error DbError.notFound :=
        getOneTodoById_notFound_iff.mpr ⟨hc, hf⟩
      simp [updateTodoDoneInfo, hb, hg]
    | some t =>
      have hg : getOneTodoById s req.id = Except.ok t :=
        getOneTodoById_ok_iff.mpr ⟨hc, hf⟩
      by_cases hdone : (t.isDone || !req.isDone) = true
      · simp [updateTodoDoneInfo, hb, hg, hdone]
      · simp [updateTodoDoneInfo, hb, hg, hdone, updateOneTodo, hc]
  · simp [updateTodoDoneInfo, hb]

theorem deleteTodo_no500 (s : DB) (req : DeleteTodoRequest)
    (hc : s.conn = true) : (deleteTodo s req).1 ≠ ApiResult.internalError := by
  by_cases hb : bindDeleteTodoRequest req = true
  · by_cases hany : s.todos.any (fun t => t.id == req.id) = true
    · simp [deleteTodo, hb, deleteOneTodo, hc, hany]
    · simp [deleteTodo, hb, deleteOneTodo, hc, hany]
  · simp [deleteTodo, hb]

theorem getTodos_no500 (s : DB) (req : GetTodosRequest) (now : Int)
    (hc : s.conn = true) : (getTodos s req now).1 ≠ ApiResult.internalError := by
  obtain ⟨p⟩ := req
  by_cases hv : validPeriod p = true
  · have hcase : p = "today" ∨ p = "tomorrow" ∨ p = "week" ∨ p = "" := by
      have h1 := hv
      simp only [validPeriod, Bool.or_eq_true, beq_iff_eq] at h1
      tauto
    rcases hcase with h | h | h | h <;> subst h
    · rw [getTodos_today_eq, getManyTodos_ok hc]
      simp
    · rw [getTodos_tomorrow_eq, getManyTodos_ok hc]
      simp
    · rw [getTodos_week_eq, getManyTodos_ok hc]
      simp
    · rw [getTodos_all_eq]
      simp [getAllTodos, hc]
  · rw [getTodos_badPeriod s p now (by simpa using hv)]
    simp

end Todos

namespace Todos

/-- An absent key makes the delete query affect zero rows. -/
theorem any_eq_false_of_lookup_none {s : DB} {i : Int} (h : lookupById s i = none) :
    s.todos.any (fun t => t.id == i) = false := by
  rw [List.any_eq_false]
  intro x hx
  have h1 := List.find?_eq_none.mp h x hx
  simpa using h1

/-- Claim C4: with the connection up no route answers 500 — in
particular a malformed expiry string on create or text-update is
answered 400 whether or not the store is reachable; a bound request for
an absent id is answered 404 by every id-addressed route; 500 arises
only from store failures. -/
theorem error_status_mapping :
    (∀ (op : Op) (s : DB), s.conn = true → statusOf (runOp s op).1 ≠ 500) ∧
    (∀ (s : DB) (req : CreateTodoRequest) (now : Int),
      parseDate req.expiry = none → statusOf (createTodo s req now).1 = 400) ∧
    (∀ (s : DB) (req : UpdateTodoInfoRequest) (now : Int),
      parseDate req.expiry = none → statusOf (updateTodoTextInfo s req now).1 = 400) ∧
    (∀ (s : DB) (req : GetTodoByIdRequest), s.conn = true →
      bindGetTodoByIdRequest req = true → lookupById s req.id = none →
      (getTodoById s req).1 = ApiResult.notFound) ∧
    (∀ (s : DB) (req : DeleteTodoRequest), s.conn = true →
      bindDeleteTodoRequest req = true → lookupById s req.id = none →
      (deleteTodo s req).1 = ApiResult.notFound) ∧
    (∀ (s : DB) (req : UpdateTodoCompletionRequest), s.conn = true →
      bindUpdateTodoCompletionRequest req = true → lookupById s req.id = none →
      (updateTodoCompletionInfo s req).1 = ApiResult.notFound) ∧
    (∀ (s : DB) (req : UpdateTodoDoneRequest), s.conn = true →
      bindUpdateTodoDoneRequest req = true → lookupById s req.id = none →
      (updateTodoDoneInfo s req).1 = ApiResult.notFound) := by
  refine ⟨?_, ?_, ?_, ?_, ?_, ?_, ?_⟩
  · intro op s hc h500
    have h := statusOf_eq_500.mp h500
    cases op with
    | create req now => exact createTodo_no500 s req now hc h
    | getById req => exact getTodoById_no500 s req hc h
    | listTodos req now => exact getTodos_no500 s req now hc h
    | updateText req now => exact updateTodoTextInfo_no500 s req now hc h
    | updateCompletion req => exact updateTodoCompletionInfo_no500 s req hc h
    | updateDone req => exact updateTodoDoneInfo_no500 s req hc h
    | deleteById req => exact deleteTodo_no500 s req hc h
  · intro s req now hp
    by_cases hb : bindCreateTodoRequest req = true
    · simp [createTodo, hb, hp, statusOf]
    · simp [createTodo, hb, statusOf]
  · intro s req now hp
    by_cases hb : bindUpdateTodoInfoRequest req = true
    · simp [updateTodoTextInfo, hb, hp, statusOf]
    · simp [updateTodoTextInfo, hb, statusOf]
  · intro s req hc hb hnone
    have hg : getOneTodoById s req.id = Except.error DbError.notFound :=
      getOneTodoById_notFound_iff.mpr ⟨hc, hnone⟩
    simp [getTodoById, hb, hg]
  · intro s req hc hb hnone
    have hany := any_eq_false_of_lookup_none hnone
    simp [deleteTodo, hb, deleteOneTodo, hc, hany]
  · intro s req hc hb hnone
    have hg : getOneTodoById s req.id = Except.error DbError.notFound :=
      getOneTodoById_notFound_iff.mpr ⟨hc, hnone⟩
    simp [updateTodoCompletionInfo, hb, hg]
  · intro s req hc hb hnone
    have hg : getOneTodoById s req.id = Except.error DbError.notFound :=
      getOneTodoById_notFound_iff.mpr ⟨hc, hnone⟩
    simp [updateTodoDoneInfo, hb, hg]

/-- Instance of claim C4 at concrete inputs: a live-store create does
not answer 500, an unparseable expiry answers 400, and a lookup of an
absent id answers 404. -/
theorem error_status_mapping_witness :
    statusOf (runOp ⟨true, [], 1⟩ (Op.create ⟨"t", "d", "2099-01-01"⟩ 0)).1 ≠ 500 ∧
    statusOf (createTodo ⟨true, [], 1⟩ ⟨"t", "d", "2022-13-23"⟩ 0).1 = 400 ∧
    (getTodoById ⟨true, [], 1⟩ ⟨5⟩).1 = ApiResult.notFound :=
  ⟨error_status_mapping.1 (Op.create ⟨"t", "d", "2099-01-01"⟩ 0) ⟨true, [], 1⟩ rfl,
   error_status_mapping.2.1 ⟨true, [], 1⟩ ⟨"t", "d", "2022-13-23"⟩ 0 (by decide),
   error_status_mapping.2.2.2.1 ⟨true, [], 1⟩ ⟨5⟩ rfl (by decide) rfl⟩

end Todos

namespace Todos

/-- Claim C5: for `period=tomorrow` the queried window starts at the
current instant `now` itself — not at tomorrow's midnight — and ends at
the midnight opening day `today+2`; consequently a still-open todo
expiring later today is part of the reply. -/
theorem tomorrow_range_includes_today (s : DB) (now : Int) (hc : s.conn = true) :
    getTodos s ⟨"tomorrow"⟩ now =
      (ApiResult.okTodos (s.todos.filter fun t =>
        decide (now ≤ t.expiry) &&
        decide (t.expiry ≤ startOfDay now + 2 * secondsPerDay) && !t.isDone), s) ∧
    (∀ t ∈ s.todos, t.isDone = false → now ≤ t.expiry →
      t.expiry ≤ startOfDay now + secondsPerDay →
      ∃ l, (getTodos s ⟨"tomorrow"⟩ now).1 = ApiResult.okTodos l ∧ t ∈ l) := by
  have heq : getTodos s ⟨"tomorrow"⟩ now =
      (ApiResult.okTodos (s.todos.filter fun t =>
        decide (now ≤ t.expiry) &&
        decide (t.expiry ≤ startOfDay now + 2 * secondsPerDay) && !t.isDone), s) := by
    rw [getTodos_tomorrow_eq, getManyTodos_ok hc, startOfDay_addDateDays]
  refine ⟨heq, ?_⟩
  intro t hmem hdone h1 h2
  refine ⟨_, by rw [heq], ?_⟩
  apply List.mem_filter.mpr
  refine ⟨hmem, ?_⟩
  have h3 : t.expiry ≤ startOfDay now + 2 * secondsPerDay := by
    refine le_trans h2 ?_
    unfold secondsPerDay
    omega
  simp [h1, h3, hdone]

/-- Instance of claim C5 at a concrete input: on day 3 at 01:00 a todo
expiring the same day at 02:00 appears in the `tomorrow` reply. -/
theorem tomorrow_range_includes_today_witness :
    ∃ l, (getTodos ⟨true, [⟨1, "a", "b", 0, 3 * 86400 + 7200, false⟩], 2⟩ ⟨"tomorrow"⟩
        (3 * 86400 + 3600)).1 = ApiResult.okTodos l ∧
      (⟨1, "a", "b", 0, 3 * 86400 + 7200, false⟩ : Todo) ∈ l :=
  (tomorrow_range_includes_today ⟨true, [⟨1, "a", "b", 0, 3 * 86400 + 7200, false⟩], 2⟩
      (3 * 86400 + 3600) rfl).2 ⟨1, "a", "b", 0, 3 * 86400 + 7200, false⟩
      (by decide) rfl (by decide) (by decide)

/-- Claim C6 as stated is false on Sundays: with `now` on a Sunday
(weekday 0) the handler returns a todo that expires more than 7 days
after the start of the current day, so the window is not a 7-day span
starting from today — it is an 8-day one. -/
theorem week_range_counterexample :
    weekdayNum (3 * 86400 + 3600) = 0 ∧
    (getTodos ⟨true, [⟨1, "a", "b", 0, 10 * 86400 + 43200, false⟩], 2⟩ ⟨"week"⟩
        (3 * 86400 + 3600)).1 =
      ApiResult.okTodos [⟨1, "a", "b", 0, 10 * 86400 + 43200, false⟩] ∧
    ¬((10 * 86400 + 43200 : Int) ≤ 3 * 86400 + 3600 + 7 * 86400) ∧
    ¬((10 * 86400 + 43200 : Int) ≤ startOfDay (3 * 86400 + 3600) + 7 * 86400) := by
  refine ⟨by decide, ?_, by decide, by decide⟩
  decide

/-- Claim C6 (amended): for `period=week` the end of the window is
computed by adding `8 - weekday` days (Sunday = 0) to the current day's
midnight; that end always falls on a Monday midnight, i.e. the end of
the upcoming Sunday; when today is Sunday the window extends 8 days
past today's midnight (today through the following Sunday inclusive),
not 7. -/
theorem week_range_rules :
    (∀ (s : DB) (now : Int), s.conn = true →
      getTodos s ⟨"week"⟩ now =
        (ApiResult.okTodos (s.todos.filter fun t =>
          decide (now ≤ t.expiry) &&
          decide (t.expiry ≤ startOfDay now + (8 - weekdayNum now) * secondsPerDay) &&
          !t.isDone), s)) ∧
    (∀ now : Int, weekdayNum (startOfDay now + (8 - weekdayNum now) * secondsPerDay) = 1) ∧
    (∀ now : Int, weekdayNum now = 0 →
      startOfDay now + (8 - weekdayNum now) * secondsPerDay =
        startOfDay now + 8 * secondsPerDay) := by
  refine ⟨?_, ?_, ?_⟩
  · intro s now hc
    rw [getTodos_week_eq, getManyTodos_ok hc, startOfDay_addDateDays]
  · intro now
    rw [weekdayNum_startOfDay_add]
    omega
  · intro now h0
    rw [h0]
    norm_num

/-- Instance of claim C6 at a concrete input: day 3 is a Sunday and the
window there ends 8 days after its midnight. -/
theorem week_range_rules_witness :
    getTodos ⟨true, [], 1⟩ ⟨"week"⟩ 259200 = (ApiResult.okTodos [], ⟨true, [], 1⟩) ∧
    startOfDay 259200 + (8 - weekdayNum 259200) * secondsPerDay =
      startOfDay 259200 + 8 * secondsPerDay := by
  constructor
  · have h := week_range_rules.1 ⟨true, [], 1⟩ 259200 rfl
    simpa using h
  · exact week_range_rules.2.2 259200 (by decide)

end Todos

namespace Todos

/-- Claim C7: a period outside today/tomorrow/week/empty is answered 400
with the store untouched; a named period replies exactly with the
still-open rows whose expiry lies in the inclusive window starting at
`now`; the empty period replies with every stored row, finished or not,
with no filter at all. -/
theorem period_filter_rules :
    (∀ (s : DB) (p : String) (now : Int),
      p ≠ "today" → p ≠ "tomorrow" → p ≠ "week" → p ≠ "" →
      getTodos s ⟨p⟩ now = (ApiResult.badRequest ApiErr.bindingError, s)) ∧
    (∀ (s : DB) (p : String) (now : Int), s.conn = true →
      (p = "today" ∨ p = "tomorrow" ∨ p = "week") →
      ∃ endTime, getTodos s ⟨p⟩ now =
        (ApiResult.okTodos (s.todos.filter fun t =>
          decide (now ≤ t.expiry) && decide (t.expiry ≤ endTime) && !t.isDone), s)) ∧
    (∀ (s : DB) (now : Int), s.conn = true →
      getTodos s ⟨""⟩ now = (ApiResult.okTodos s.todos, s)) := by
  refine ⟨?_, ?_, ?_⟩
  · intro s p now h1 h2 h3 h4
    have hv : validPeriod p = false := by
      simp [validPeriod, h1, h2, h3, h4]
    exact getTodos_badPeriod s p now hv
  · intro s p now hc hp
    rcases hp with h | h | h <;> subst h
    · exact ⟨startOfDay (addDateDays now 1), by rw [getTodos_today_eq, getManyTodos_ok hc]⟩
    · exact ⟨startOfDay (addDateDays now 2), by rw [getTodos_tomorrow_eq, getManyTodos_ok hc]⟩
    · exact ⟨startOfDay (addDateDays now (8 - weekdayNum now)),
        by rw [getTodos_week_eq, getManyTodos_ok hc]⟩
  · intro s now hc
    rw [getTodos_all_eq]
    simp [getAllTodos, hc]

/-- Instance of claim C7 at concrete inputs: `period=bogus` is answered
400, and the empty period returns even a finished row. -/
theorem period_filter_rules_witness :
    getTodos ⟨true, [], 1⟩ ⟨"bogus"⟩ 0 =
      (ApiResult.badRequest ApiErr.bindingError, ⟨true, [], 1⟩) ∧
    getTodos ⟨true, [⟨1, "a", "b", 0, 5, true⟩], 2⟩ ⟨""⟩ 0 =
      (ApiResult.okTodos [⟨1, "a", "b", 0, 5, true⟩], ⟨true, [⟨1, "a", "b", 0, 5, true⟩], 2⟩) :=
  ⟨period_filter_rules.1 ⟨true, [], 1⟩ "bogus" 0 (by decide) (by decide) (by decide) (by decide),
   period_filter_rules.2.2 ⟨true, [⟨1, "a", "b", 0, 5, true⟩], 2⟩ 0 rfl⟩

/-- Claim C8: a successful text update stores exactly the fetched row
with title, description and expiry replaced by the requested values;
its id, completion and done flag are untouched. -/
theorem text_update_frame (s : DB) (req : UpdateTodoInfoRequest) (now : Int) (t : Todo)
    (y m d : Nat) (hconn : s.conn = true) (hb : bindUpdateTodoInfoRequest req = true)
    (hp : parseDate req.expiry = some (y, m, d)) (hlt : ¬dateToUnix y m d < now)
    (hfind : lookupById s req.id = some t) :
    updateTodoTextInfo s req now =
      (ApiResult.okTodo (textRow t req (dateToUnix y m d)),
       { s with todos := saveRow s.todos (textRow t req (dateToUnix y m d)) }) ∧
    (textRow t req (dateToUnix y m d)).completion = t.completion ∧
    (textRow t req (dateToUnix y m d)).isDone = t.isDone ∧
    (textRow t req (dateToUnix y m d)).id = t.id ∧
    (textRow t req (dateToUnix y m d)).title = req.title ∧
    (textRow t req (dateToUnix y m d)).description = req.description ∧
    (textRow t req (dateToUnix y m d)).expiry = dateToUnix y m d ∧
    lookupById (updateTodoTextInfo s req now).2 req.id =
      some (textRow t req (dateToUnix y m d)) := by
  have hg : getOneTodoById s req.id = Except.ok t := getOneTodoById_ok_iff.mpr ⟨hconn, hfind⟩
  have heq : updateTodoTextInfo s req now =
      (ApiResult.okTodo (textRow t req (dateToUnix y m d)),
       { s with todos := saveRow s.todos (textRow t req (dateToUnix y m d)) }) := by
    simp [updateTodoTextInfo, hb, hp, hlt, hg, updateOneTodo, hconn, saveRow, textRow]
  have hidx0 : t.id = req.id := lookupById_id hfind
  have hidx : (textRow t req (dateToUnix y m d)).id = req.id := hidx0
  refine ⟨heq, rfl, rfl, rfl, rfl, rfl, rfl, ?_⟩
  rw [heq]
  simp only [lookupById]
  exact find?_replaceById _ hfind hidx

/-- Instance of claim C8 at a concrete input: retitling the stored todo
keeps completion 50 and the done flag. -/
theorem text_update_frame_witness :
    updateTodoTextInfo ⟨true, [⟨1, "x", "y", 50, 5, false⟩], 2⟩
        ⟨1, "nt", "nd", "2099-01-01"⟩ 0 =
      (ApiResult.okTodo (textRow ⟨1, "x", "y", 50, 5, false⟩
          ⟨1, "nt", "nd", "2099-01-01"⟩ (dateToUnix 2099 1 1)),
       ⟨true, [⟨1, "nt", "nd", 50, dateToUnix 2099 1 1, false⟩], 2⟩) ∧
    (textRow ⟨1, "x", "y", 50, 5, false⟩ ⟨1, "nt", "nd", "2099-01-01"⟩
        (dateToUnix 2099 1 1)).completion = 50 := by
  have h := text_update_frame ⟨true, [⟨1, "x", "y", 50, 5, false⟩], 2⟩
    ⟨1, "nt", "nd", "2099-01-01"⟩ 0 ⟨1, "x", "y", 50, 5, false⟩ 2099 1 1
    rfl (by decide) (by decide) (by decide) rfl
  refine ⟨?_, h.2.1⟩
  have h1 := h.1
  rw [h1]
  simp [saveRow, textRow]

/-- `DeleteOneTodo` reports `"not found"` exactly when the connection is
up and the DELETE matched no row. -/
theorem deleteOneTodo_eq_notFound_iff {s : DB} {i : Int} :
    deleteOneTodo s i = Except.error DbError.notFound ↔
      s.conn = true ∧ s.todos.any (fun t => t.id == i) = false := by
  cases hc : s.conn <;> by_cases hany : s.todos.any (fun t => t.id == i) = true <;>
    simp [deleteOneTodo, hc, hany]

/-- The delete route answers 404 when the key is absent. -/
theorem deleteTodo_notFound_eq {s : DB} {i : Int} (hc : s.conn = true)
    (hb : bindDeleteTodoRequest ⟨i⟩ = true)
    (hany : s.todos.any (fun t => t.id == i) = false) :
    (deleteTodo s ⟨i⟩).1 = ApiResult.notFound := by
  have hd : deleteOneTodo s i = Except.error DbError.notFound :=
    deleteOneTodo_eq_notFound_iff.mpr ⟨hc, hany⟩
  simp [deleteTodo, hb, hd]

/-- Claim C9: deleting a stored id succeeds and removes the row, a
second delete of the same id is answered 404, and in general the delete
route answers 404 exactly when no row was removed. -/
theorem delete_idempotent :
    (∀ (s : DB) (i : Int) (t : Todo), s.conn = true → 1 ≤ i → lookupById s i = some t →
      (deleteTodo s ⟨i⟩).1 = ApiResult.okMsg ∧
      lookupById (deleteTodo s ⟨i⟩).2 i = none ∧
      (deleteTodo (deleteTodo s ⟨i⟩).2 ⟨i⟩).1 = ApiResult.notFound) ∧
    (∀ (s : DB) (i : Int), s.conn = true → 1 ≤ i →
      ((deleteTodo s ⟨i⟩).1 = ApiResult.notFound ↔ lookupById s i = none)) := by
  have hbind : ∀ i : Int, 1 ≤ i → bindDeleteTodoRequest ⟨i⟩ = true := by
    intro i hi
    simp only [bindDeleteTodoRequest, Bool.and_eq_true, bne_iff_ne, ne_eq,
      decide_eq_true_eq]
    omega
  constructor
  · intro s i t hc hi hfind
    have hb := hbind i hi
    have hany : s.todos.any (fun u => u.id == i) = true := by
      rw [List.any_eq_true]
      exact ⟨t, lookupById_mem hfind, by simp [lookupById_id hfind]⟩
    have heq : deleteTodo s ⟨i⟩ =
        (ApiResult.okMsg, { s with todos := s.todos.filter fun u => !(u.id == i) }) := by
      simp [deleteTodo, hb, deleteOneTodo, hc, hany]
    have hnone2 : lookupById { s with todos := s.todos.filter fun u => !(u.id == i) } i =
        none := by
      simp only [lookupById]
      exact find?_filter_self
    have hany2 : ({ s with todos := s.todos.filter fun u => !(u.id == i) } : DB).todos.any
        (fun u => u.id == i) = false := any_eq_false_of_lookup_none hnone2
    refine ⟨by rw [heq], by rw [heq]; exact hnone2, ?_⟩
    rw [heq]
    exact deleteTodo_notFound_eq hc hb hany2
  · intro s i hc hi
    have hb := hbind i hi
    constructor
    · intro h
      cases hf : lookupById s i with
      | none => rfl
      | some t =>
        have hany : s.todos.any (fun u => u.id == i) = true := by
          rw [List.any_eq_true]
          exact ⟨t, lookupById_mem hf, by simp [lookupById_id hf]⟩
        have heq : (deleteTodo s ⟨i⟩).1 = ApiResult.okMsg := by
          simp [deleteTodo, hb, deleteOneTodo, hc, hany]
        rw [heq] at h
        exact absurd h (by simp)
    · intro hnone
      exact deleteTodo_notFound_eq hc hb (any_eq_false_of_lookup_none hnone)

/-- Instance of claim C9 at a concrete store: the first delete of id 1
succeeds, the second answers 404. -/
theorem delete_idempotent_witness :
    (deleteTodo ⟨true, [⟨1, "a", "b", 0, 5, false⟩], 2⟩ ⟨1⟩).1 = ApiResult.okMsg ∧
    (deleteTodo (deleteTodo ⟨true, [⟨1, "a", "b", 0, 5, false⟩], 2⟩ ⟨1⟩).2 ⟨1⟩).1 =
      ApiResult.notFound :=
  ⟨(delete_idempotent.1 ⟨true, [⟨1, "a", "b", 0, 5, false⟩], 2⟩ 1
      ⟨1, "a", "b", 0, 5, false⟩ rfl (by decide) rfl).1,
   (delete_idempotent.1 ⟨true, [⟨1, "a", "b", 0, 5, false⟩], 2⟩ 1
      ⟨1, "a", "b", 0, 5, false⟩ rfl (by decide) rfl).2.2⟩

/-- Claim C10: a completion-update request with value exactly 0 is
rejected by the `required` binding with 400 and the store untouched, so
no completion update ever writes a stored completion of 0: every stored
row with completion 0 after the handler ran was already stored before. -/
theorem completion_zero_binding :
    (∀ (s : DB) (req : UpdateTodoCompletionRequest), req.completion = 0 →
      updateTodoCompletionInfo s req = (ApiResult.badRequest ApiErr.bindingError, s)) ∧
    (∀ (s : DB) (req : UpdateTodoCompletionRequest) (t1 : Todo),
      t1 ∈ (updateTodoCompletionInfo s req).2.todos → t1.completion = 0 →
      t1 ∈ s.todos) := by
  constructor
  · intro s req hc0
    have hb : bindUpdateTodoCompletionRequest req = false := by
      simp [bindUpdateTodoCompletionRequest, hc0]
    simp [updateTodoCompletionInfo, hb]
  · intro s req t1 hmem h0
    rcases updateTodoCompletionInfo_state s req with h | ⟨todo, _, hbind, _, h⟩
    · rw [h] at hmem
      exact hmem
    · rw [h] at hmem
      have hne : req.completion ≠ 0 := by
        intro hz
        rw [show bindUpdateTodoCompletionRequest req = false by
          simp [bindUpdateTodoCompletionRequest, hz]] at hbind
        exact absurd hbind (by simp)
      simp only [saveRow] at hmem
      obtain ⟨u, hu, hmap⟩ := List.mem_map.mp hmem
      by_cases hcase : (u.id == ({ todo with completion := req.completion } : Todo).id) = true
      · rw [if_pos hcase] at hmap
        rw [← hmap] at h0
        exact absurd h0 hne
      · rw [if_neg hcase] at hmap
        rw [← hmap]
        exact hu

/-- Instance of claim C10 at concrete inputs: requesting completion 0 is
answered with the binding error, and after an unrelated update a stored
completion-0 row is one that was already there. -/
theorem completion_zero_binding_witness :
    updateTodoCompletionInfo ⟨true, [⟨1, "a", "b", 50, 5, false⟩], 2⟩ ⟨1, 0⟩ =
      (ApiResult.badRequest ApiErr.bindingError, ⟨true, [⟨1, "a", "b", 50, 5, false⟩], 2⟩) ∧
    (⟨1, "a", "b", 0, 5, false⟩ : Todo) ∈
      (⟨true, [⟨1, "a", "b", 0, 5, false⟩], 2⟩ : DB).todos :=
  ⟨completion_zero_binding.1 ⟨true, [⟨1, "a", "b", 50, 5, false⟩], 2⟩ ⟨1, 0⟩ rfl,
   completion_zero_binding.2 ⟨true, [⟨1, "a", "b", 0, 5, false⟩], 2⟩ ⟨2, 10⟩
     ⟨1, "a", "b", 0, 5, false⟩ (by decide) rfl⟩

end Todos
